import Mathlib

/-!
Verification of the multipass client launch command and its collaborators.

The definitions below are a shallow embedding of the C++ sources:
  * `src/src/client/cli/cmd/launch.cpp` (network-option parsing, the
    launch success/failure/streaming callbacks),
  * `src/include/multipass/url_downloader.h` (the downloader cancellation
    flag),
  * the Linux platform backend selection and the virtual-machine state
    machine (whose implementations are exercised by
    `src/tests/linux/test_platform_linux.cpp` and
    `src/tests/mock_virtual_machine.h`).

Strings are modelled as lists of characters so that the Qt splitting
behaviour (`QString::split` with `SkipEmptyParts`) can be reasoned about
with list lemmas.
-/

deriving instance DecidableEq for Except

namespace Multipass

/-- Strings of the embedding: QString / std::string become lists of chars. -/
abbrev Str := List Char

/-- A hexadecimal digit character. -/
def isHexChar (c : Char) : Bool :=
  c.isDigit || (decide ('a' ≤ c) && decide (c ≤ 'f')) || (decide ('A' ≤ c) && decide (c ≤ 'F'))

/-- QString::toLower, character by character. -/
def toLowerStr (s : Str) : Str := s.map Char.toLower

/-- QString::split(sep, QString::SkipEmptyParts): split on every occurrence
of `sep` and drop the empty parts. -/
def splitSkipEmpty (sep : Char) (s : Str) : List Str :=
  (s.splitOn sep).filter (fun p => !p.isEmpty)

/-- The protobuf enum LaunchRequest_NetworkOptions_Mode. AUTO is the zero
value, hence the protobuf default. -/
inductive Mode where
  | AUTO
  | MANUAL
deriving DecidableEq, Repr

/-- The protobuf message LaunchRequest_NetworkOptions: fields id, mode and
mac_address, default-initialised to empty string / AUTO / empty string. -/
structure NetworkOptions where
  id : Str
  mode : Mode
  mac_address : Str
deriving DecidableEq, Repr

/-- A default-constructed LaunchRequest_NetworkOptions message. -/
def emptyNet : NetworkOptions := { id := [], mode := Mode.AUTO, mac_address := [] }

/-- Modelled from the spec: `mpu::valid_mac_address` lives in a utils
translation unit that is not under src/; the spec describes the accepted
format as the standard 6-octet colon/hyphen-separated hex hardware
address. -/
def valid_mac_address (mac : Str) : Bool :=
  let octetsOk := fun (parts : List Str) =>
    decide (parts.length = 6) &&
      parts.all (fun p => decide (p.length = 2) && p.all isHexChar)
  octetsOk (mac.splitOn ':') || octetsOk (mac.splitOn '-')

/-- checked_mode from launch.cpp: accept only auto and manual. -/
def checked_mode (mode : Str) : Except Str Mode :=
  if mode = "auto".toList then Except.ok Mode.AUTO
  else if mode = "manual".toList then Except.ok Mode.MANUAL
  else Except.error ("Bad network mode ".toList ++ mode ++ ", need auto or manual".toList)

/-- checked_mac from launch.cpp: throw unless valid_mac_address accepts. -/
def checked_mac (mac : Str) : Except Str Str :=
  if valid_mac_address mac then Except.ok mac
  else Except.error ("Invalid MAC address: ".toList ++ mac)

/-- The body of the net_digest loop for one comma-separated entry.
`split_size` is the number of (nonempty) comma-separated entries of the
whole option string; the single-token shorthand applies only when it is 1. -/
def digestPair (split_size : Nat) (net : NetworkOptions) (kv : Str) :
    Except Str NetworkOptions :=
  match splitSkipEmpty '=' kv with
  | [k, v] =>
    if toLowerStr k = "name".toList then Except.ok { net with id := v }
    else if toLowerStr k = "mode".toList then
      (checked_mode (toLowerStr v)).map (fun m => { net with mode := m })
    else if toLowerStr k = "mac".toList then
      (checked_mac v).map (fun m => { net with mac_address := m })
    else Except.error ("Bad network field: ".toList ++ toLowerStr k)
  | [single] =>
    if split_size = 1 then Except.ok { net with id := single }
    else Except.error ("Bad network field definition: ".toList ++ kv)
  | _ => Except.error ("Bad network field definition: ".toList ++ kv)

/-- The net_digest loop over all comma-separated entries, threading the
protobuf message being filled in. -/
def digestPairs (split_size : Nat) (net : NetworkOptions) :
    List Str → Except Str NetworkOptions
  | [] => Except.ok net
  | kv :: rest =>
    match digestPair split_size net kv with
    | Except.ok net' => digestPairs split_size net' rest
    | Except.error e => Except.error e

/-- net_digest from launch.cpp: parse one --network option string into a
LaunchRequest_NetworkOptions message, or fail with a validation error. -/
def net_digest (options : Str) : Except Str NetworkOptions :=
  let split := splitSkipEmpty ',' options
  match digestPairs split.length emptyNet split with
  | Except.error e => Except.error e
  | Except.ok net =>
    if net.id = [] then
      Except.error "Bad network definition, need at least a name field".toList
    else Except.ok net

theorem splitOn_eq_single (sep : Char) (s : Str) (hmem : sep ∉ s) :
    s.splitOn sep = [s] := by
  simp only [List.splitOn]
  exact List.splitOnP_eq_single _ _ (fun x hx h => hmem (beq_iff_eq.mp h ▸ hx))

theorem splitSkipEmpty_eq_single (sep : Char) (s : Str) (hne : s ≠ []) (hmem : sep ∉ s) :
    splitSkipEmpty sep s = [s] := by
  unfold splitSkipEmpty
  rw [splitOn_eq_single sep s hmem]
  cases s with
  | nil => exact absurd rfl hne
  | cons c cs => simp [List.filter_cons]

theorem splitOn_append_cons (sep : Char) (a b : Str) (ha : sep ∉ a) :
    (a ++ sep :: b).splitOn sep = a :: b.splitOn sep := by
  simp only [List.splitOn]
  exact List.splitOnP_first (fun c => c == sep) a
    (fun x hx h => ha (beq_iff_eq.mp h ▸ hx)) sep (by simp) b

theorem splitSkipEmpty_append_cons (sep : Char) (a b : Str) (hane : a ≠ []) (ha : sep ∉ a) :
    splitSkipEmpty sep (a ++ sep :: b) = a :: splitSkipEmpty sep b := by
  unfold splitSkipEmpty
  rw [splitOn_append_cons sep a b ha]
  cases a with
  | nil => exact absurd rfl hane
  | cons c cs => simp [List.filter_cons]

/-- C4: a single bare token with no separators parses as that name, with
the mode left at its default (auto). -/
theorem netDigest_bare_token (s : Str) (hne : s ≠ []) (hc : ',' ∉ s) (he : '=' ∉ s) :
    net_digest s = Except.ok { id := s, mode := Mode.AUTO, mac_address := [] } := by
  have h1 : splitSkipEmpty ',' s = [s] := splitSkipEmpty_eq_single ',' s hne hc
  have h2 : splitSkipEmpty '=' s = [s] := splitSkipEmpty_eq_single '=' s hne he
  simp [net_digest, h1, digestPairs, digestPair, h2, emptyNet, hne]

/-- Witness for C4 at the concrete token of the spec example. -/
theorem netDigest_bare_token_witness :
    net_digest "mynet".toList =
      Except.ok { id := "mynet".toList, mode := Mode.AUTO, mac_address := [] } :=
  netDigest_bare_token "mynet".toList (by decide) (by decide) (by decide)

/-- C2 counterexample: a duplicated name key is not rejected; the option
parses successfully, keeping the last value. -/
theorem netDigest_duplicate_name_counterexample :
    net_digest "name=a,name=b".toList =
      Except.ok { id := "b".toList, mode := Mode.AUTO, mac_address := [] } := by decide

theorem digestPair_name_eq (n : Nat) (net : NetworkOptions) (x : Str)
    (hx : x ≠ []) (he : '=' ∉ x) :
    digestPair n net ("name=".toList ++ x) = Except.ok { net with id := x } := by
  have h0 : ("name=".toList ++ x) = ("name".toList ++ '=' :: x) := by simp
  have h1 : splitSkipEmpty '=' ("name=".toList ++ x) = ["name".toList, x] := by
    rw [h0, splitSkipEmpty_append_cons '=' "name".toList x (by decide) (by decide),
        splitSkipEmpty_eq_single '=' x hx he]
  unfold digestPair
  rw [h1]
  simp [show toLowerStr ['n', 'a', 'm', 'e'] = ['n', 'a', 'm', 'e'] from by decide]

/-- C2 amended: for duplicated name keys the parser applies each pair in
order, so the last occurrence wins and the whole option is accepted. -/
theorem netDigest_duplicate_name_last_wins (a b : Str) (ha : a ≠ []) (hb : b ≠ [])
    (hac : ',' ∉ a) (hae : '=' ∉ a) (hbc : ',' ∉ b) (hbe : '=' ∉ b) :
    net_digest ("name=".toList ++ a ++ ',' :: ("name=".toList ++ b)) =
      Except.ok { id := b, mode := Mode.AUTO, mac_address := [] } := by
  have hp1ne : ("name=".toList ++ a) ≠ [] := by simp
  have hp2ne : ("name=".toList ++ b) ≠ [] := by simp
  have hp1c : ',' ∉ ("name=".toList ++ a) := by
    intro h
    rcases List.mem_append.mp h with h | h
    · revert h; decide
    · exact hac h
  have hp2c : ',' ∉ ("name=".toList ++ b) := by
    intro h
    rcases List.mem_append.mp h with h | h
    · revert h; decide
    · exact hbc h
  have hsplit : splitSkipEmpty ',' (("name=".toList ++ a) ++ ',' :: ("name=".toList ++ b)) =
      ["name=".toList ++ a, "name=".toList ++ b] := by
    rw [splitSkipEmpty_append_cons ',' _ _ hp1ne hp1c,
        splitSkipEmpty_eq_single ',' _ hp2ne hp2c]
  simp only [List.append_assoc] at hsplit ⊢
  unfold net_digest
  simp only [hsplit, digestPairs, digestPair_name_eq _ _ a ha hae,
    digestPair_name_eq _ _ b hb hbe]
  simp [hb, emptyNet]

/-- Witness for the amended C2 theorem at the concrete spec example. -/
theorem netDigest_duplicate_name_last_wins_witness :
    net_digest ("name=".toList ++ "a".toList ++ ',' :: ("name=".toList ++ "b".toList)) =
      Except.ok { id := "b".toList, mode := Mode.AUTO, mac_address := [] } :=
  netDigest_duplicate_name_last_wins "a".toList "b".toList (by decide) (by decide)
    (by decide) (by decide) (by decide) (by decide)

/-- The syntactic rejection classes of one comma-separated entry, mirroring
the throw sites of net_digest: a key=value pair with an unrecognized key, a
mode value other than auto/manual, a MAC rejected by valid_mac_address, a
bare token when the option has more than one entry, or a malformed pair
(more than one = inside an entry). -/
def badPair (split_size : Nat) (kv : Str) : Bool :=
  match splitSkipEmpty '=' kv with
  | [k, v] =>
    if toLowerStr k = "name".toList then false
    else if toLowerStr k = "mode".toList then
      decide (toLowerStr v ≠ "auto".toList ∧ toLowerStr v ≠ "manual".toList)
    else if toLowerStr k = "mac".toList then !(valid_mac_address v)
    else true
  | [_] => decide (split_size ≠ 1)
  | _ => true

theorem digestPair_error_of_badPair (n : Nat) (kv : Str) (hbad : badPair n kv = true)
    (net : NetworkOptions) : ∃ e, digestPair n net kv = Except.error e := by
  unfold badPair at hbad
  unfold digestPair
  cases hs : splitSkipEmpty '=' kv with
  | nil => exact ⟨_, rfl⟩
  | cons k rest =>
    cases rest with
    | nil =>
      rw [hs] at hbad
      replace hbad : decide (n ≠ 1) = true := hbad
      rw [decide_eq_true_eq] at hbad
      show ∃ e, (if n = 1 then Except.ok { net with id := k }
        else Except.error ("Bad network field definition: ".toList ++ kv)) = Except.error e
      rw [if_neg hbad]
      exact ⟨_, rfl⟩
    | cons v rest2 =>
      cases rest2 with
      | nil =>
        rw [hs] at hbad
        replace hbad : (if toLowerStr k = "name".toList then false
            else if toLowerStr k = "mode".toList then
              decide (toLowerStr v ≠ "auto".toList ∧ toLowerStr v ≠ "manual".toList)
            else if toLowerStr k = "mac".toList then !(valid_mac_address v)
            else true) = true := hbad
        show ∃ e, (if toLowerStr k = "name".toList then
            Except.ok { net with id := v }
          else if toLowerStr k = "mode".toList then
            (checked_mode (toLowerStr v)).map (fun m => { net with mode := m })
          else if toLowerStr k = "mac".toList then
            (checked_mac v).map (fun m => { net with mac_address := m })
          else Except.error ("Bad network field: ".toList ++ toLowerStr k)) = Except.error e
        by_cases hname : toLowerStr k = "name".toList
        · rw [if_pos hname] at hbad
          cases hbad
        · rw [if_neg hname] at hbad ⊢
          by_cases hmode : toLowerStr k = "mode".toList
          · rw [if_pos hmode] at hbad ⊢
            rw [decide_eq_true_eq] at hbad
            unfold checked_mode
            rw [if_neg hbad.1, if_neg hbad.2]
            exact ⟨_, rfl⟩
          · rw [if_neg hmode] at hbad ⊢
            by_cases hmac : toLowerStr k = "mac".toList
            · rw [if_pos hmac] at hbad ⊢
              rw [Bool.not_eq_true'] at hbad
              unfold checked_mac
              rw [if_neg (by simp [hbad])]
              exact ⟨_, rfl⟩
            · rw [if_neg hmac]
              exact ⟨_, rfl⟩
      | cons w rest3 =>
        exact ⟨_, rfl⟩

theorem digestPairs_error_of_exists_bad (n : Nat) :
    ∀ l : List Str, (∃ kv ∈ l, badPair n kv = true) →
      ∀ net, ∃ e, digestPairs n net l = Except.error e := by
  intro l
  induction l with
  | nil =>
    rintro ⟨kv, hmem, _⟩ net
    cases hmem
  | cons kv rest ih =>
    rintro ⟨kv', hmem, hbad⟩ net
    rcases List.mem_cons.mp hmem with rfl | hmem'
    · rcases digestPair_error_of_badPair n kv' hbad net with ⟨e, he⟩
      exact ⟨e, by simp [digestPairs, he]⟩
    · cases hd : digestPair n net kv with
      | ok net' =>
        rcases ih ⟨kv', hmem', hbad⟩ net' with ⟨e, he⟩
        exact ⟨e, by simp [digestPairs, hd, he]⟩
      | error e => exact ⟨e, by simp [digestPairs, hd]⟩

/-- C5: network option parsing is all-or-nothing. Any entry falling into a
rejection class (unrecognized key, malformed pair, bad mode, invalid MAC,
bare token among several entries) fails the entire option with a validation
error and nothing is returned; moreover every successful parse carries a
non-empty name, so an option without one is also rejected. -/
theorem netDigest_all_or_nothing :
    (∀ s : Str,
        (∃ kv ∈ splitSkipEmpty ',' s, badPair (splitSkipEmpty ',' s).length kv = true) →
        ∃ e, net_digest s = Except.error e) ∧
    (∀ (s : Str) (net : NetworkOptions), net_digest s = Except.ok net → net.id ≠ []) := by
  constructor
  · intro s hex
    rcases digestPairs_error_of_exists_bad _ _ hex emptyNet with ⟨e, he⟩
    exact ⟨e, by unfold net_digest; simp [he]⟩
  · intro s net h
    unfold net_digest at h
    cases hd : digestPairs (splitSkipEmpty ',' s).length emptyNet (splitSkipEmpty ',' s) with
    | error e =>
      simp only [hd] at h
      exact absurd h (by simp)
    | ok net' =>
      simp only [hd] at h
      by_cases hid : net'.id = []
      · simp [hid] at h
      · rw [if_neg hid] at h
        cases h
        exact hid

/-- Witness for C5 at a concrete rejected option (unrecognized key). -/
theorem netDigest_all_or_nothing_witness :
    ∃ e, net_digest "foo=bar".toList = Except.error e :=
  netDigest_all_or_nothing.1 "foo=bar".toList ⟨"foo=bar".toList, by decide, by decide⟩

/-! ### The metrics opt-in handshake of the on_success callback -/

/-- The protobuf enum OptInStatus.Status. The message itself is not under
src/; UNKNOWN is the zero value, hence the default of a freshly constructed
request whose opt_in_reply was never touched. The values ACCEPTED, DENIED
and LATER are the ones assigned by launch.cpp. -/
inductive OptInStatus where
  | UNKNOWN
  | PENDING
  | LATER
  | ACCEPTED
  | DENIED
deriving DecidableEq, Repr

/-- Full icase match against the regex y|yes. -/
def matches_yes (s : Str) : Bool :=
  toLowerStr s == "y".toList || toLowerStr s == "yes".toList

/-- Full icase match against the regex n|no. -/
def matches_no (s : Str) : Bool :=
  toLowerStr s == "n".toList || toLowerStr s == "no".toList

/-- Full icase match against the regex l|later. -/
def matches_later (s : Str) : Bool :=
  toLowerStr s == "l".toList || toLowerStr s == "later".toList

/-- Full icase match against the regex s|show. -/
def matches_show (s : Str) : Bool :=
  toLowerStr s == "s".toList || toLowerStr s == "show".toList

/-- The while(true) prompt loop of on_success: consume answers from the
terminal until one decides the opt-in status; a show answer (when host info
is available) and an unrecognized answer both re-prompt. `none` models a
session whose input ends before any deciding answer. -/
def prompt_loop (has_host_info : Bool) : List Str → Option OptInStatus
  | [] => none
  | answer :: rest =>
    if matches_yes answer then some OptInStatus.ACCEPTED
    else if matches_no answer then some OptInStatus.DENIED
    else if answer.isEmpty || matches_later answer then some OptInStatus.LATER
    else if has_host_info && matches_show answer then prompt_loop has_host_info rest
    else prompt_loop has_host_info rest

/-- What the on_success callback does after handling a reply. -/
inductive LaunchAction where
  | Reissue
  | Done
deriving DecidableEq, Repr

/-- The fields of a LaunchReply that drive the opt-in branch of
on_success. -/
structure LaunchReplyMeta where
  metrics_pending : Bool
  has_host_info : Bool
deriving DecidableEq, Repr

/-- The observable outcome of one run of on_success: the opt-in status
stored in the request afterwards, whether the launch request is re-issued,
and whether the interactive handshake (prompt and read loop) ran. -/
structure OnSuccessOutcome where
  opt_in_status : OptInStatus
  action : LaunchAction
  ran_handshake : Bool
deriving DecidableEq, Repr

/-- The opt-in logic of the on_success lambda in request_launch: when
metrics are pending, run the handshake only on a live terminal, then
re-issue the launch request; otherwise report the launched instance.
`current` is the opt_in_status already stored in the request. -/
def on_success (reply : LaunchReplyMeta) (is_live : Bool) (answers : List Str)
    (current : OptInStatus) : Option OnSuccessOutcome :=
  if reply.metrics_pending then
    if is_live then
      (prompt_loop reply.has_host_info answers).map
        (fun st => { opt_in_status := st, action := LaunchAction.Reissue, ran_handshake := true })
    else
      some { opt_in_status := current, action := LaunchAction.Reissue, ran_handshake := false }
  else
    some { opt_in_status := current, action := LaunchAction.Done, ran_handshake := false }

/-- C1 counterexample: with metrics pending on a non-interactive session,
on_success skips the handshake and re-issues the launch, but the opt-in
status stays at the request default UNKNOWN; it is not recorded as LATER. -/
theorem on_success_noninteractive_counterexample :
    on_success { metrics_pending := true, has_host_info := false } false [] OptInStatus.UNKNOWN =
      some { opt_in_status := OptInStatus.UNKNOWN, action := LaunchAction.Reissue,
             ran_handshake := false } ∧
    OptInStatus.UNKNOWN ≠ OptInStatus.LATER := by decide

/-- C1 amended: the handshake runs only in an interactive session; a
non-interactive session skips it, leaves the stored opt-in status
unchanged (it is not set to LATER) and re-issues the launch request. -/
theorem on_success_handshake_only_interactive :
    (∀ (reply : LaunchReplyMeta) (answers : List Str) (current : OptInStatus),
        reply.metrics_pending = true →
        on_success reply false answers current =
          some { opt_in_status := current, action := LaunchAction.Reissue,
                 ran_handshake := false }) ∧
    (∀ (reply : LaunchReplyMeta) (answers : List Str) (current : OptInStatus)
        (out : OnSuccessOutcome),
        reply.metrics_pending = true →
        on_success reply true answers current = some out →
        out.ran_handshake = true ∧ out.action = LaunchAction.Reissue) := by
  constructor
  · intro reply answers current hpend
    simp [on_success, hpend]
  · intro reply answers current out hpend h
    simp only [on_success, hpend, if_true, ite_true] at h
    cases hp : prompt_loop reply.has_host_info answers with
    | none => rw [hp] at h; cases h
    | some st =>
      rw [hp] at h
      cases h
      exact ⟨rfl, rfl⟩

/-- Witness for the amended C1 theorem on a concrete non-interactive and a
concrete interactive run. -/
theorem on_success_handshake_only_interactive_witness :
    on_success { metrics_pending := true, has_host_info := false } false [] OptInStatus.UNKNOWN =
      some { opt_in_status := OptInStatus.UNKNOWN, action := LaunchAction.Reissue,
             ran_handshake := false } ∧
    (OnSuccessOutcome.ran_handshake
        { opt_in_status := OptInStatus.ACCEPTED, action := LaunchAction.Reissue,
          ran_handshake := true } = true ∧
      OnSuccessOutcome.action
        { opt_in_status := OptInStatus.ACCEPTED, action := LaunchAction.Reissue,
          ran_handshake := true } = LaunchAction.Reissue) :=
  ⟨on_success_handshake_only_interactive.1
      { metrics_pending := true, has_host_info := false } [] OptInStatus.UNKNOWN rfl,
    on_success_handshake_only_interactive.2
      { metrics_pending := true, has_host_info := false } ["yes".toList] OptInStatus.UNKNOWN
      { opt_in_status := OptInStatus.ACCEPTED, action := LaunchAction.Reissue,
        ran_handshake := true } rfl (by decide)⟩

/-! ### The on_failure callback: rendering structured launch errors -/

/-- Check whether `x` occurs at the start of `h`. -/
def leadsWith : Str → Str → Bool
  | [], _ => true
  | _ :: _, [] => false
  | a :: as, b :: bs => (a == b) && leadsWith as bs

/-- Check whether `x` occurs contiguously anywhere in `h`. -/
def hasRun (x : Str) : Str → Bool
  | [] => x.isEmpty
  | c :: rest => leadsWith x (c :: rest) || hasRun x rest

theorem leadsWith_append (x y : Str) : leadsWith x (x ++ y) = true := by
  induction x with
  | nil => rfl
  | cons c cs ih => simp [leadsWith, ih]

theorem leadsWith_refl (x : Str) : leadsWith x x = true := by
  induction x with
  | nil => rfl
  | cons c cs ih => simp [leadsWith, ih]

theorem hasRun_of_leadsWith (x h : Str) (hl : leadsWith x h = true) : hasRun x h = true := by
  cases h with
  | nil =>
    cases x with
    | nil => rfl
    | cons a as => simp [leadsWith] at hl
  | cons c rest => simp [hasRun, hl]

theorem hasRun_append_left (x pre h : Str) (hr : hasRun x h = true) :
    hasRun x (pre ++ h) = true := by
  induction pre with
  | nil => exact hr
  | cons c cs ih => simp [hasRun, ih]

theorem hasRun_middle (pre x post : Str) : hasRun x (pre ++ x ++ post) = true := by
  rw [List.append_assoc]
  exact hasRun_append_left x pre _ (hasRun_of_leadsWith x _ (leadsWith_append x post))

theorem hasRun_after (pre x : Str) : hasRun x (pre ++ x) = true :=
  hasRun_append_left x pre x (hasRun_of_leadsWith x x (leadsWith_refl x))

/-- The LaunchError.ErrorCodes values handled by the on_failure lambda. -/
inductive LaunchErrorCode where
  | INVALID_DISK_SIZE
  | INVALID_MEM_SIZE
  | INVALID_HOSTNAME
  | INVALID_NETWORK
deriving DecidableEq, Repr

/-- The launch request fields read back by the on_failure lambda when
rendering an error. -/
structure LaunchRequestFields where
  disk_space : Str
  mem_size : Str
  instance_name : Str
  network_options : List NetworkOptions
deriving DecidableEq, Repr

/-- The on_failure lambda of request_launch: iterate over the structured
error codes, overwriting error_details with the message rendered for each
recognized code (starting from the empty string). -/
def on_failure_details (req : LaunchRequestFields) (codes : List LaunchErrorCode) : Str :=
  codes.foldl
    (fun _ code =>
      match code with
      | LaunchErrorCode.INVALID_DISK_SIZE =>
        "Invalid disk size value supplied: ".toList ++ req.disk_space ++ ".".toList
      | LaunchErrorCode.INVALID_MEM_SIZE =>
        "Invalid memory size value supplied: ".toList ++ req.mem_size ++ ".".toList
      | LaunchErrorCode.INVALID_HOSTNAME =>
        "Invalid instance name supplied: ".toList ++ req.instance_name
      | LaunchErrorCode.INVALID_NETWORK =>
        "Invalid network options supplied".toList)
    []

/-- A failing request whose offending network option is named foo. -/
def exampleNetworkRequest : LaunchRequestFields :=
  { disk_space := "5G".toList, mem_size := "1G".toList,
    instance_name := "test1".toList,
    network_options := [{ id := "foo".toList, mode := Mode.AUTO, mac_address := [] }] }

/-- C3 counterexample: for the invalid-network code the client renders a
fixed message that does not contain the offending option value foo. -/
theorem invalidNetwork_message_omits_value :
    on_failure_details exampleNetworkRequest [LaunchErrorCode.INVALID_NETWORK] =
      "Invalid network options supplied".toList ∧
    hasRun "foo".toList
      (on_failure_details exampleNetworkRequest [LaunchErrorCode.INVALID_NETWORK]) = false := by
  decide

/-- C3 amended: the disk-size, memory-size and hostname failures render a
message containing the offending field value; the invalid-network failure
renders a fixed message without the offending value. -/
theorem launch_error_rendering (req : LaunchRequestFields) :
    hasRun req.disk_space
      (on_failure_details req [LaunchErrorCode.INVALID_DISK_SIZE]) = true ∧
    hasRun req.mem_size
      (on_failure_details req [LaunchErrorCode.INVALID_MEM_SIZE]) = true ∧
    hasRun req.instance_name
      (on_failure_details req [LaunchErrorCode.INVALID_HOSTNAME]) = true ∧
    on_failure_details req [LaunchErrorCode.INVALID_NETWORK] =
      "Invalid network options supplied".toList :=
  ⟨hasRun_middle "Invalid disk size value supplied: ".toList req.disk_space ".".toList,
    hasRun_middle "Invalid memory size value supplied: ".toList req.mem_size ".".toList,
    hasRun_after "Invalid instance name supplied: ".toList req.instance_name,
    rfl⟩

/-! ### The streaming callback: progress rendering -/

/-- The protobuf enum LaunchProgress.ProgressTypes, exactly the six kinds
keyed in the progress_messages map of the streaming callback. -/
inductive ProgressType where
  | IMAGE
  | KERNEL
  | INITRD
  | EXTRACT
  | VERIFY
  | WAITING
deriving DecidableEq, Repr

/-- The progress_messages map of the streaming callback. -/
def progress_message : ProgressType → Str
  | ProgressType.IMAGE => "Retrieving image: ".toList
  | ProgressType.KERNEL => "Retrieving kernel image: ".toList
  | ProgressType.INITRD => "Retrieving initrd image: ".toList
  | ProgressType.EXTRACT => "Extracting image: ".toList
  | ProgressType.VERIFY => "Verifying image: ".toList
  | ProgressType.WAITING => "Preparing image: ".toList

/-- The LaunchProgress message: a kind and a percent-complete string,
where the sentinel -1 means indeterminate. -/
structure LaunchProgress where
  type : ProgressType
  percent_complete : Str
deriving DecidableEq, Repr

/-- The create_oneof_case of a LaunchReply as inspected by the streaming
callback. -/
inductive CreateOneof where
  | progress (p : LaunchProgress)
  | createMessage (m : Str)
  | unset
deriving DecidableEq, Repr

/-- The LaunchReply fields read by the streaming callback. -/
structure StreamReply where
  log_line : Str
  oneof : CreateOneof
  reply_message : Str
deriving DecidableEq, Repr

/-- The console effects the streaming callback can produce: a log line on
stderr, stopping the spinner, a percentage print on stdout, or starting the
indeterminate spinner with a message. -/
inductive DisplayAction where
  | printErr (s : Str)
  | spinnerStop
  | printOut (s : Str)
  | spinnerStart (s : Str)
deriving DecidableEq, Repr

/-- The streaming_callback lambda of request_launch, as the ordered list of
console effects it produces for one reply. -/
def streaming_callback (r : StreamReply) : List DisplayAction :=
  (if r.log_line.isEmpty then [] else [DisplayAction.printErr r.log_line]) ++
    (match r.oneof with
     | CreateOneof.progress p =>
       if p.percent_complete ≠ "-1".toList then
         [DisplayAction.spinnerStop,
          DisplayAction.printOut
            (progress_message p.type ++ p.percent_complete ++ "%".toList)]
       else
         [DisplayAction.spinnerStop, DisplayAction.spinnerStart (progress_message p.type)]
     | CreateOneof.createMessage m =>
       [DisplayAction.spinnerStop, DisplayAction.spinnerStart m]
     | CreateOneof.unset =>
       if r.reply_message.isEmpty then []
       else [DisplayAction.spinnerStop, DisplayAction.spinnerStart r.reply_message])

/-- C6: progress kinds are exactly the six of the spec; a determinate
percentage is printed after the kind message while no indeterminate
indicator starts, and the sentinel -1 starts the indeterminate indicator
with the kind message while nothing is printed on stdout. -/
theorem streaming_progress_rendering :
    (∀ t : ProgressType,
        t = ProgressType.IMAGE ∨ t = ProgressType.KERNEL ∨ t = ProgressType.INITRD ∨
        t = ProgressType.EXTRACT ∨ t = ProgressType.VERIFY ∨ t = ProgressType.WAITING) ∧
    (∀ (r : StreamReply) (p : LaunchProgress), r.oneof = CreateOneof.progress p →
        p.percent_complete ≠ "-1".toList →
        DisplayAction.printOut
            (progress_message p.type ++ p.percent_complete ++ "%".toList) ∈
          streaming_callback r ∧
        ∀ m, DisplayAction.spinnerStart m ∉ streaming_callback r) ∧
    (∀ (r : StreamReply) (p : LaunchProgress), r.oneof = CreateOneof.progress p →
        p.percent_complete = "-1".toList →
        DisplayAction.spinnerStart (progress_message p.type) ∈ streaming_callback r ∧
        ∀ m, DisplayAction.printOut m ∉ streaming_callback r) := by
  refine ⟨fun t => by cases t <;> simp, ?_, ?_⟩
  · intro r p ho hp
    simp only [streaming_callback, ho, if_pos hp, ite_not]
    constructor
    · cases hl : r.log_line.isEmpty <;> simp [hp]
    · intro m
      cases hl : r.log_line.isEmpty <;> simp [hp]
  · intro r p ho hp
    simp only [streaming_callback, ho]
    constructor
    · cases hl : r.log_line.isEmpty <;> simp [hp]
    · intro m
      cases hl : r.log_line.isEmpty <;> simp [hp]

/-- Witness for C6 on a concrete determinate and a concrete indeterminate
progress reply. -/
theorem streaming_progress_rendering_witness :
    (DisplayAction.printOut
        (progress_message ProgressType.IMAGE ++ "42".toList ++ "%".toList) ∈
      streaming_callback
        ⟨[], CreateOneof.progress ⟨ProgressType.IMAGE, "42".toList⟩, []⟩) ∧
    (DisplayAction.spinnerStart (progress_message ProgressType.VERIFY) ∈
      streaming_callback
        ⟨[], CreateOneof.progress ⟨ProgressType.VERIFY, "-1".toList⟩, []⟩) :=
  ⟨(streaming_progress_rendering.2.1
      ⟨[], CreateOneof.progress ⟨ProgressType.IMAGE, "42".toList⟩, []⟩
      ⟨ProgressType.IMAGE, "42".toList⟩ rfl (by decide)).1,
    (streaming_progress_rendering.2.2
      ⟨[], CreateOneof.progress ⟨ProgressType.VERIFY, "-1".toList⟩, []⟩
      ⟨ProgressType.VERIFY, "-1".toList⟩ rfl (by decide)).1⟩

/-! ### The URLDownloader cancellation flag

The header `include/multipass/url_downloader.h` declares the single
protected member `std::atomic_bool abort_download{false}` shared by all
downloads of one instance; the download loop bodies live in a translation
unit that is not under src/ and are modelled from the spec. -/

/-- The downloader state: its one shared cancellation flag, false on
construction as in the header initialiser. -/
structure URLDownloader where
  abort_download : Bool
deriving DecidableEq, Repr

/-- A freshly constructed URLDownloader. -/
def mkURLDownloader : URLDownloader := { abort_download := false }

/-- abort_all_downloads: set the shared cancellation flag. -/
def abort_all_downloads (d : URLDownloader) : URLDownloader :=
  { d with abort_download := true }

/-- Outcome of a download loop. -/
inductive DownloadResult where
  | success
  | aborted
deriving DecidableEq, Repr

/-- Modelled from the spec: the body of `URLDownloader::download_to` /
`download` is not under src/. The spec says each download loop checks the
shared flag between chunks and aborts with a cancellation condition when it
is set. `chunks` is the number of chunk reads remaining for an in-flight
download. -/
def download_chunks (d : URLDownloader) : Nat → DownloadResult
  | 0 => DownloadResult.success
  | n + 1 =>
    if d.abort_download then DownloadResult.aborted
    else download_chunks d n

/-- C7: abort_all_downloads sets the single shared flag of the instance and
every in-flight download with at least one chunk left observes it at its
next check and aborts; the cancellation is a broadcast over all in-flight
downloads of the instance. -/
theorem abort_all_downloads_broadcast :
    (∀ d : URLDownloader, (abort_all_downloads d).abort_download = true) ∧
    (∀ (d : URLDownloader) (n : Nat), 0 < n →
        download_chunks (abort_all_downloads d) n = DownloadResult.aborted) ∧
    (∀ (d : URLDownloader) (inflight : List Nat), (∀ n ∈ inflight, 0 < n) →
        inflight.map (download_chunks (abort_all_downloads d)) =
          inflight.map (fun _ => DownloadResult.aborted)) := by
  have habort : ∀ (d : URLDownloader) (n : Nat), 0 < n →
      download_chunks (abort_all_downloads d) n = DownloadResult.aborted := by
    intro d n hn
    cases n with
    | zero => cases hn
    | succ m => simp [download_chunks, abort_all_downloads]
  refine ⟨fun d => rfl, habort, ?_⟩
  intro d inflight hpos
  exact List.map_congr_left (fun n hn => habort d n (hpos n hn))

/-- Witness for C7: a fresh downloader with two in-flight downloads of 3
and 1 remaining chunks, all aborted after abort_all_downloads. -/
theorem abort_all_downloads_broadcast_witness :
    (abort_all_downloads mkURLDownloader).abort_download = true ∧
    download_chunks (abort_all_downloads mkURLDownloader) 3 = DownloadResult.aborted ∧
    [3, 1].map (download_chunks (abort_all_downloads mkURLDownloader)) =
      [3, 1].map (fun _ => DownloadResult.aborted) :=
  ⟨abort_all_downloads_broadcast.1 mkURLDownloader,
    abort_all_downloads_broadcast.2.1 mkURLDownloader 3 (by decide),
    abort_all_downloads_broadcast.2.2 mkURLDownloader [3, 1] (by decide)⟩

/-! ### Backend selection on Linux

`mp::platform::vm_backend` itself is not under src/; it is modelled from
the spec and pinned by the tests in tests/linux/test_platform_linux.cpp:
the configured driver setting selects qemu, libvirt or lxd, any other
selector throws, and the driver environment variable is ignored. -/

/-- The concrete factory types produced by vm_backend on Linux. -/
inductive BackendFactory where
  | qemu
  | libvirt
  | lxd
deriving DecidableEq, Repr

/-- Modelled from the spec: vm_backend switches on the configured driver
setting over the compiled-in backend menu and fails with an
unsupported-backend condition otherwise. -/
def vm_backend (driver : Str) : Except Str BackendFactory :=
  if driver = "qemu".toList then Except.ok BackendFactory.qemu
  else if driver = "libvirt".toList then Except.ok BackendFactory.libvirt
  else if driver = "lxd".toList then Except.ok BackendFactory.lxd
  else Except.error ("Unsupported virtualization driver: ".toList ++ driver)

/-- is_backend_supported, as exercised by the TestUnsupportedDrivers
cases. -/
def is_backend_supported (driver : Str) : Bool :=
  driver == "qemu".toList || driver == "libvirt".toList || driver == "lxd".toList

/-- C8: each supported selector produces the factory bound to that backend
and every unsupported selector fails with an unsupported-backend error. -/
theorem vm_backend_selection :
    (vm_backend "qemu".toList = Except.ok BackendFactory.qemu ∧
      vm_backend "libvirt".toList = Except.ok BackendFactory.libvirt ∧
      vm_backend "lxd".toList = Except.ok BackendFactory.lxd) ∧
    (∀ driver : Str, is_backend_supported driver = false →
        ∃ e, vm_backend driver = Except.error e) := by
  refine ⟨⟨by decide, by decide, by decide⟩, ?_⟩
  intro driver h
  simp only [is_backend_supported, Bool.or_eq_false_iff, beq_eq_false_iff_ne] at h
  unfold vm_backend
  rw [if_neg h.1.1, if_neg h.1.2, if_neg h.2]
  exact ⟨_, rfl⟩

/-- Witness for C8 at the unsupported selector hyperkit from the tests. -/
theorem vm_backend_selection_witness :
    ∃ e, vm_backend "hyperkit".toList = Except.error e :=
  vm_backend_selection.2 "hyperkit".toList (by decide)

/-- Modelled from the spec and the tests test_qemu_in_env_var_is_ignored /
test_libvirt_in_env_var_is_ignored: backend construction reads only the
driver setting; the driver environment variable plays no part. -/
def vm_backend_with_env (env_driver : Str) (setting_driver : Str) :
    Except Str BackendFactory :=
  vm_backend setting_driver

/-- C10: two runs differing only in the driver environment variable select
the same factory; in particular QEMU in the environment does not override a
libvirt setting and LIBVIRT does not override a qemu setting. -/
theorem vm_backend_env_insensitive :
    (∀ env1 env2 setting : Str,
        vm_backend_with_env env1 setting = vm_backend_with_env env2 setting) ∧
    vm_backend_with_env "QEMU".toList "libvirt".toList =
      Except.ok BackendFactory.libvirt ∧
    vm_backend_with_env "LIBVIRT".toList "qemu".toList =
      Except.ok BackendFactory.qemu := by
  exact ⟨fun _ _ _ => rfl, by decide, by decide⟩

/-! ### The VirtualMachine state machine

The concrete stop() implementations live in backend translation units that
are not under src/ (only the libvirt header and the gmock declaration are);
the transition is modelled from the spec, which makes stop() on an
already-stopped machine a no-op success. -/

/-- VirtualMachine::State. -/
inductive VMState where
  | off
  | starting
  | running
  | stopping
  | stopped
  | suspending
  | suspended
  | restarting
  | delayed_shutdown
  | unknown
deriving DecidableEq, Repr

/-- The mutable per-instance fields relevant to lifecycle transitions:
the current state and the suspend-status flag of the libvirt backend. -/
structure VirtualMachine where
  vm_name : Str
  state : VMState
  update_suspend_status : Bool
deriving DecidableEq, Repr

/-- Modelled from the spec: stop(force) requests shutdown and on success
reaches `stopped`; on an already-stopped machine it is a no-op success, as
the spec makes re-entrant transitions permissive for daemon retries. -/
def stop (force : Bool) (vm : VirtualMachine) : Except Str VirtualMachine :=
  match vm.state with
  | VMState.stopped => Except.ok vm
  | _ => Except.ok { vm with state := VMState.stopped }

/-- C9: stop() on a machine whose state is stopped succeeds, performs no
side effects (the machine is returned unchanged), and leaves the state
stopped. -/
theorem stop_idempotent_on_stopped (vm : VirtualMachine) (force : Bool)
    (h : vm.state = VMState.stopped) :
    stop force vm = Except.ok vm := by
  unfold stop
  rw [h]

/-- Witness for C9 at a concrete stopped machine. -/
theorem stop_idempotent_on_stopped_witness :
    stop false { vm_name := "test1".toList, state := VMState.stopped,
                 update_suspend_status := false } =
      Except.ok { vm_name := "test1".toList, state := VMState.stopped,
                  update_suspend_status := false } :=
  stop_idempotent_on_stopped
    { vm_name := "test1".toList, state := VMState.stopped, update_suspend_status := false }
    false rfl

end Multipass
